import Mathlib

/-!
# Shallow embedding of `logaggregate.py`

This file embeds the ingestion-and-batching pipeline of the log aggregator:
the record decoder and acceptance filter, the batch collector
(`receive_batch`), the two sink policies (`write_immediately`,
`write_batch`), the ingestion loop (`listen_and_write`), the configuration
validator (`Config.init`) and the bind-address parser (`parse_bind`).

Python values are modelled as follows: machine-independent Python ints are
`Int`/`Nat`; `json.loads` outcomes are `Option Json` (a raw datagram either
fails to parse, `none`, or parses to a JSON value); dicts are association
lists with Python-dict lookup semantics; exceptions are `Except`/`Option`
results; the blocking socket is a finite list of frames already delivered,
with a run that exhausts it reported as `blocked` (the real program would
sit in `recvfrom` forever); the unbounded `while` loop of the ingestion
loop takes explicit fuel, with `fuelOut` marking a run that is still going
when the fuel ends.
-/

namespace LogAggregate

/-- JSON values as produced by `json.loads`. -/
inductive Json where
  | null
  | bool (b : Bool)
  | num (n : Int)
  | str (s : String)
  | arr (elems : List Json)
  | obj (fields : List (String × Json))

/-- One raw datagram after the `loads` attempt: `none` when `loads` raises
`JSONDecodeError`, `some payload` when it parses. -/
abbrev Frame := Option Json

/-- The acceptance filter from the source.  The shipped implementation
(the custom logic is commented out in the source) accepts everything. -/
def filter (_inpt : Json) : Bool :=
  true

/-- The `batchsize` argument of `receive_batch`: a Python int, or
`float('inf')` (the default of the `--total` option, which is passed as the
batchsize in streaming mode). -/
inductive Limit where
  | fin (n : Int)
  | inf
deriving DecidableEq, Repr

/-- `count < limit` for a Python int `count`: always true against
`float('inf')`. -/
def ltLimit (count : Int) : Limit → Bool
  | .fin n => count < n
  | .inf => true

/-- Outcome of driving the `receive_batch` generator to its end:
the payloads it yielded, the number of frames it read from the socket, and
whether it returned (`completed = true`, the count reached the batchsize)
or is still blocked in `recvfrom` waiting for a frame that never arrives
(`completed = false`, the finite frame list ran out). -/
structure RecvOut where
  accepted : List Json
  consumed : Nat
  completed : Bool

/-- `receive_batch(sck, batchsize)` from the source, with the socket
modelled as the finite list of frames it will deliver.  Per iteration:
read one frame, try `loads` (`none` = `JSONDecodeError` → `continue`),
evaluate `filter`; an accepted payload bumps the count and is yielded.
Note the source never checks that the parsed payload is a JSON object. -/
def receive_batch (frames : List Frame) (count : Nat) (batchsize : Limit) :
    RecvOut :=
  if ltLimit (count : Int) batchsize then
    match frames with
    | [] => ⟨[], 0, false⟩
    | f :: rest =>
      match f with
      | none =>
        let r := receive_batch rest count batchsize
        ⟨r.accepted, r.consumed + 1, r.completed⟩
      | some payload =>
        if filter payload then
          let r := receive_batch rest (count + 1) batchsize
          ⟨payload :: r.accepted, r.consumed + 1, r.completed⟩
        else
          let r := receive_batch rest count batchsize
          ⟨r.accepted, r.consumed + 1, r.completed⟩
  else ⟨[], 0, true⟩

/-- The payloads of a frame list that decode and pass the filter, in
arrival order: exactly the records `receive_batch` may yield. -/
def acceptedPayloads (frames : List Frame) : List Json :=
  (frames.filterMap id).filter filter

/-- A Python dict over string keys, as an association list (unique keys
when it comes from a real dict). -/
abbrev Fields := List (String × Json)

/-- The dict merge `{**d, **r}`: the keys of `d` in order, each with `r`'s
value where `r` has the key, followed by the keys of `r` that `d` lacks. -/
def dictMerge (d r : Fields) : Fields :=
  d.map (fun kv => (kv.1, (List.lookup kv.1 r).getD kv.2)) ++
    r.filter (fun kv => (List.lookup kv.1 d).isNone)

/-- `{**cfg.defaults, **pld}` for a decoded payload: Python raises
`TypeError` (`none` here) when `pld` is not a mapping. -/
def mergeRecord (defaults : Fields) : Json → Option Fields
  | .obj fields => some (dictMerge defaults fields)
  | _ => none

/-- One parameterized store execution: the statement text and the merged
named-parameter dict handed to sqlite. -/
abbrev Execution := String × Fields

/-- The executions the inner `for insrt in cfg.insert` loop of
`write_immediately` performs for one payload: each configured insert
statement once, with the merged record as parameters; `none` when the
merge raises `TypeError` (never reached when `inserts` is empty, since the
merge expression sits inside the loop body). -/
def recordExecs (inserts : List String) (defaults : Fields) (pld : Json) :
    Option (List Execution) :=
  inserts.mapM (fun insrt => (mergeRecord defaults pld).map (fun p => (insrt, p)))

/-- `write_immediately(cfg, conn, inpt)` on a materialized record
sequence: for each payload in order, apply every insert statement with the
merged record; `none` when a merge raises. -/
def write_immediately (inserts : List String) (defaults : Fields) :
    List Json → Option (List Execution)
  | [] => some []
  | pld :: rest => do
    let es ← recordExecs inserts defaults pld
    let t ← write_immediately inserts defaults rest
    pure (es ++ t)

/-- `write_batch(cfg, conn, inpt)`: `inpt` is the one-shot receive
generator.  The `executemany` of the first insert statement consumes it
entirely; every later insert statement therefore iterates an exhausted
generator, which the recursive call's `[]` argument records. -/
def write_batch (inserts : List String) (defaults : Fields) (gen : List Json) :
    Option (List Execution) :=
  match inserts with
  | [] => some []
  | insrt :: rest => do
    let ps ← gen.mapM (mergeRecord defaults)
    let t ← write_batch rest defaults []
    pure (ps.map (fun p => (insrt, p)) ++ t)

/-- Python exceptions escaping `parse_bind`. -/
inductive PyError where
  | valueError (msg : String)
  | typeError (msg : String)

/-- The socket family constants used by the source. -/
inductive Family where
  | afInet
  | afInet6
  | afUnix

/-- The value `parse_bind` returns: `(family, (hostname, port))` for an ip
socket, `(AF_UNIX, path)` for a unix domain socket. -/
inductive Binding where
  | ip (family : Family) (host : List Char) (port : Nat)
  | unixPath (path : List Char)

/-- Scheme characters accepted by `urllib.parse`: letters, digits and
`+`, `-`, `.`. -/
def isSchemeChar (c : Char) : Bool :=
  c.isAlphanum || c = '+' || c = '-' || c = '.'

/-- The components of a parsed URL that `parse_bind` consults. -/
structure UrlParts where
  scheme : List Char
  netloc : List Char
  path : List Char

/-- Modelled from the stdlib collaborator `urllib.parse.urlparse`,
restricted to `scheme://netloc/path` shapes (no params, query or
fragment), which is what `parse_bind` consumes: the scheme is the prefix
before the first `:` when that prefix is a non-empty run of scheme
characters starting with a letter (lowercased in the result); a remainder
starting with `//` has its netloc run to the next `/`; everything after
the netloc is the path. -/
def pyUrlparse (url : List Char) : UrlParts :=
  let pre := url.takeWhile (fun c => c ≠ ':')
  if pre.length < url.length ∧ pre ≠ [] ∧
      pre.head?.elim false Char.isAlpha ∧ pre.all isSchemeChar then
    let rest := url.drop (pre.length + 1)
    if rest.take 2 = ['/', '/'] then
      let after := rest.drop 2
      let netloc := after.takeWhile (fun c => c ≠ '/')
      ⟨pre.map Char.toLower, netloc, after.drop netloc.length⟩
    else ⟨pre.map Char.toLower, [], rest⟩
  else if url.take 2 = ['/', '/'] then
    let after := url.drop 2
    let netloc := after.takeWhile (fun c => c ≠ '/')
    ⟨[], netloc, after.drop netloc.length⟩
  else ⟨[], [], url⟩

/-- The netloc after its last `@` (the `rpartition('@')` of the stdlib's
`_hostinfo`). -/
def hostinfoOf (netloc : List Char) : List Char :=
  if netloc.contains '@' then (netloc.reverse.takeWhile (fun c => c ≠ '@')).reverse
  else netloc

/-- The stdlib `ParseResult.hostname`: the hostinfo up to its first `:`,
lowercased; `None` (not the empty string) when that is empty, as for any
`scheme:///path` URL. -/
def urlHostname (netloc : List Char) : Option (List Char) :=
  let host := (hostinfoOf netloc).takeWhile (fun c => c ≠ ':')
  if host = [] then none else some (host.map Char.toLower)

/-- Numeric value of a digit run. -/
def digitsVal (ds : List Char) : Nat :=
  ds.foldl (fun n c => 10 * n + (c.toNat - 48)) 0

/-- The stdlib `ParseResult.port`: the digits after the hostinfo's first
`:`, or `None` when there are none.  (The stdlib raises on a non-numeric
or out-of-range port; no input considered here has one.) -/
def urlPort (netloc : List Char) : Option Nat :=
  let hi := hostinfoOf netloc
  let portStr := if hi.contains ':' then (hi.dropWhile (fun c => c ≠ ':')).drop 1 else []
  if portStr ≠ [] ∧ portStr.all Char.isDigit then some (digitsVal portStr) else none

/-- One dotted-quad group: up to three digits, value at most 255, no
leading zero. -/
def isIPv4Octet (g : List Char) : Bool :=
  !g.isEmpty && g.length ≤ 3 && g.all Char.isDigit && digitsVal g ≤ 255 &&
    (g.length = 1 || g.head?.elim false (fun c => c ≠ '0'))

/-- A dotted-quad IPv4 literal. -/
def isIPv4 (host : List Char) : Bool :=
  let groups := host.splitOn '.'
  groups.length = 4 && groups.all isIPv4Octet

/-- A hexadecimal digit. -/
def isHexChar (c : Char) : Bool :=
  c.isDigit || ('a' ≤ c ∧ c ≤ 'f') || ('A' ≤ c ∧ c ≤ 'F')

/-- Modelled from the stdlib collaborator `ipaddress.ip_address`: `some 4`
for an IPv4 literal, `some 6` for (a coarse check of) an IPv6 literal, and
`none` where the call raises `ValueError` — in particular on every
ordinary host name such as `localhost`, which contains neither dots in
quad form nor a colon. -/
def ipVersion (host : List Char) : Option Nat :=
  if isIPv4 host then some 4
  else if host.contains ':' ∧ host.all (fun c => isHexChar c || c = ':') then some 6
  else none

def localhostChars : List Char := ['l', 'o', 'c', 'a', 'l', 'h', 'o', 's', 't']

def loopback4 : List Char := ['1', '2', '7', '.', '0', '.', '0', '.', '1']

def loopback6 : List Char := [':', ':', '1']

/-- `parse_bind(inpt)` for a string input (the `None` short-circuit of the
source is the caller's concern).  Mirrors the source line by line: default
the scheme to `ip`; for `ip`, compute the version by calling `ip_address`
on the hostname *before* the localhost substitution (so `ip_address`
raises `ValueError` on `localhost` and on any other non-literal host
name), substitute the loopback literal for a falsy or `localhost`
hostname, then demand a port; for `unix`, compare the hostname against
`''` (never true: an absent hostname is `None`) and then evaluate
`res.hostname + res.path`, a `TypeError` when the hostname is `None`;
reject every other scheme. -/
def parseBindChars (inpt : List Char) : Except PyError Binding :=
  let res0 := pyUrlparse inpt
  let res := if res0.scheme = [] then
      pyUrlparse (['i', 'p', ':', '/', '/'] ++ inpt)
    else res0
  if res.scheme = ['i', 'p'] then
    match urlHostname res.netloc with
    | some h =>
      match ipVersion h with
      | none =>
        .error (.valueError "does not appear to be an IPv4 or IPv6 address")
      | some version =>
        let hostname := if h = localhostChars then
            (if version = 4 then loopback4 else loopback6)
          else h
        match urlPort res.netloc with
        | none => .error (.valueError "No port for ip socket!")
        | some port =>
          .ok (.ip (if version = 4 then .afInet else .afInet6) hostname port)
    | none =>
      match urlPort res.netloc with
      | none => .error (.valueError "No port for ip socket!")
      | some port => .ok (.ip .afInet loopback4 port)
  else if res.scheme = ['u', 'n', 'i', 'x'] then
    if urlHostname res.netloc = some [] ∧ res.path = [] then
      .error (.valueError "No socket path!")
    else
      match urlHostname res.netloc with
      | none => .error (.typeError "unsupported operand for +: NoneType and str")
      | some h => .ok (.unixPath (h ++ res.path))
  else .error (.valueError "Unsupported scheme")

def parse_bind (inpt : String) : Except PyError Binding :=
  parseBindChars inpt.data

/-- The resolved configuration fields the pipeline reads. -/
structure Cfg where
  insert : List String
  defaults : Fields
  batch : Int
  bind : Option Binding

/-- How a (fueled) run of the ingestion loop ended. -/
inductive RunStatus where
  | finished
  | blocked
  | crashed
  | fuelOut
deriving DecidableEq, Repr

/-- State of the batched `while count < total` loop when it stops being
observed: the batches collected, the store executions performed, the final
`count`, the frames not yet read, and how it ended. -/
structure LoopOut where
  batches : List (List Json)
  execs : List Execution
  count : Int
  frames : List Frame
  status : RunStatus

/-- The batched arm of `listen_and_write`: while `count < total`, hand
`write_batch` a fresh `receive_batch(sck, batchsize)` generator and add
`batchsize` to `count`.  The generator is only driven (frames only read)
when there is at least one insert statement, since only `executemany`
consumes it; `write_batch` then sees the already-collected batch. -/
def batchedLoop (inserts : List String) (defaults : Fields) (batchsize : Int)
    (total : Limit) (fuel : Nat) (count : Int) (frames : List Frame) : LoopOut :=
  if ltLimit count total then
      match fuel with
      | 0 => ⟨[], [], count, frames, .fuelOut⟩
      | fuel + 1 =>
        if inserts.isEmpty then
          let rest := batchedLoop inserts defaults batchsize total fuel
            (count + batchsize) frames
          ⟨[] :: rest.batches, rest.execs, rest.count, rest.frames, rest.status⟩
        else
          let r := receive_batch frames 0 (.fin batchsize)
          if r.completed then
            match write_batch inserts defaults r.accepted with
            | none => ⟨[r.accepted], [], count, frames.drop r.consumed, .crashed⟩
            | some es =>
              let rest := batchedLoop inserts defaults batchsize total fuel
                (count + batchsize) (frames.drop r.consumed)
              ⟨r.accepted :: rest.batches, es ++ rest.execs, rest.count,
                rest.frames, rest.status⟩
          else ⟨[], [], count, frames.drop r.consumed, .blocked⟩
    else ⟨[], [], count, frames, .finished⟩

/-- Outcome of the streaming arm: executions performed, frames read, and
how it ended. -/
structure StreamOut where
  execs : List Execution
  consumed : Nat
  status : RunStatus

/-- The streaming arm of `listen_and_write` (batch size 0):
`write_immediately` pulls records one at a time from
`receive_batch(sck, total)`, so the total budget is checked per record by
the generator's own counter, and each accepted record's insert statements
run before the next frame is read. -/
def streamLoop (inserts : List String) (defaults : Fields) (total : Limit)
    (frames : List Frame) (count : Nat) : StreamOut :=
  if ltLimit (count : Int) total then
      match frames with
      | [] => ⟨[], 0, .blocked⟩
      | f :: rest =>
        match f with
        | none =>
          let r := streamLoop inserts defaults total rest count
          ⟨r.execs, r.consumed + 1, r.status⟩
        | some payload =>
          if filter payload then
            match recordExecs inserts defaults payload with
            | none => ⟨[], 1, .crashed⟩
            | some es =>
              let r := streamLoop inserts defaults total rest (count + 1)
              ⟨es ++ r.execs, r.consumed + 1, r.status⟩
          else
            let r := streamLoop inserts defaults total rest count
            ⟨r.execs, r.consumed + 1, r.status⟩
    else ⟨[], 0, .finished⟩

/-- Overall observation of one `listen_and_write(cfg, conn, total)` run. -/
structure RunOut where
  batches : List (List Json)
  execs : List Execution
  count : Int
  frames : List Frame
  status : RunStatus

/-- `listen_and_write` from the source: `none` models the `RuntimeError`
raised when no bind is configured; batch size 0 selects the streaming arm
(whose loop variable `count` stays 0), any other batch size the batched
arm. -/
def listen_and_write (cfg : Cfg) (total : Limit) (fuel : Nat)
    (frames : List Frame) : Option RunOut :=
  if cfg.bind.isNone then none
  else if cfg.batch = 0 then
    let r := streamLoop cfg.insert cfg.defaults total frames 0
    some ⟨[], r.execs, 0, frames.drop r.consumed, r.status⟩
  else
    let r := batchedLoop cfg.insert cfg.defaults cfg.batch total fuel 0 frames
    some ⟨r.batches, r.execs, r.count, r.frames, r.status⟩

/-- Dynamic Python values as they reach `Config.__init__` from the merged
command line and config file. -/
inductive PyVal where
  | none
  | bool (b : Bool)
  | int (n : Int)
  | str (s : String)
  | list (xs : List PyVal)
  | dict (fields : List (String × PyVal))

/-- `x is None`. -/
def PyVal.isNone : PyVal → Bool
  | .none => true
  | _ => false

/-- `isinstance(x, list)`. -/
def PyVal.isList : PyVal → Bool
  | .list _ => true
  | _ => false

/-- `isinstance(x, int)`: Python's `bool` is a subclass of `int`. -/
def PyVal.isInt : PyVal → Bool
  | .int _ => true
  | .bool _ => true
  | _ => false

/-- The exceptions `Config.__init__` raises. -/
inductive InitError where
  | valueError (msg : String)
  | notImplementedError (msg : String)

/-- The attributes a successfully constructed `Config` carries (stored
verbatim, still dynamically typed). -/
structure ConfigAttrs where
  database : PyVal
  create : PyVal
  insert : PyVal
  defaults : PyVal
  batch : PyVal
  exporter : PyVal
  bind : PyVal

/-- `Config.__init__`, check for check in source order: a missing database
path, a non-list create list, a non-list insert list and a non-int batch
size each raise `ValueError`; with no bind, a missing exporter raises
`ValueError` and a configured one raises `NotImplementedError`; `defaults`
is never validated. -/
def Config.init (database create insert defaults batch exporter bind : PyVal) :
    Except InitError ConfigAttrs :=
  if database.isNone then
    .error (.valueError "No database file configured!")
  else if !create.isList then
    .error (.valueError "No create statement list configured!")
  else if !insert.isList then
    .error (.valueError "No insert statement list configured!")
  else if !batch.isInt then
    .error (.valueError "Invalid batch size")
  else if bind.isNone then
    if exporter.isNone then
      .error (.valueError "Neither bind nor exporter configured!")
    else
      .error (.notImplementedError "For now, please attach to the log exporter manually.")
  else
    .ok ⟨database, create, insert, defaults, batch, exporter, bind⟩

/-! ## Helper lemmas -/

theorem ltLimit_fin_natCast (c n : Nat) :
    ltLimit (c : Int) (.fin (n : Int)) = decide (c < n) := by
  simp [ltLimit]

theorem receive_batch_exit (frames : List Frame) (count : Nat) (batchsize : Limit)
    (h : ltLimit (count : Int) batchsize = false) :
    receive_batch frames count batchsize = ⟨[], 0, true⟩ := by
  rw [receive_batch.eq_def, h]
  rfl

theorem receive_batch_starved (count : Nat) (batchsize : Limit)
    (h : ltLimit (count : Int) batchsize = true) :
    receive_batch [] count batchsize = ⟨[], 0, false⟩ := by
  rw [receive_batch.eq_def, h]
  rfl

theorem receive_batch_malformed (rest : List Frame) (count : Nat)
    (batchsize : Limit) (h : ltLimit (count : Int) batchsize = true) :
    receive_batch (none :: rest) count batchsize =
      ⟨(receive_batch rest count batchsize).accepted,
        (receive_batch rest count batchsize).consumed + 1,
        (receive_batch rest count batchsize).completed⟩ := by
  rw [receive_batch.eq_def, h]
  rfl

theorem receive_batch_accepted (payload : Json) (rest : List Frame) (count : Nat)
    (batchsize : Limit) (h : ltLimit (count : Int) batchsize = true) :
    receive_batch (some payload :: rest) count batchsize =
      ⟨payload :: (receive_batch rest (count + 1) batchsize).accepted,
        (receive_batch rest (count + 1) batchsize).consumed + 1,
        (receive_batch rest (count + 1) batchsize).completed⟩ := by
  rw [receive_batch.eq_def, h]
  rfl

theorem acceptedPayloads_nil : acceptedPayloads [] = [] := rfl

theorem acceptedPayloads_malformed (rest : List Frame) :
    acceptedPayloads (none :: rest) = acceptedPayloads rest := by
  simp [acceptedPayloads]

theorem acceptedPayloads_accepted (payload : Json) (rest : List Frame) :
    acceptedPayloads (some payload :: rest) = payload :: acceptedPayloads rest := by
  simp [acceptedPayloads, List.filter_cons, filter]

/-- Core collector property: as long as the batchsize still to collect is
covered by the accepted payloads the socket will deliver, the generator
returns, yielding exactly the next `n - c` accepted payloads in arrival
order; the frames it read contain exactly those accepted payloads. -/
theorem receive_batch_complete (frames : List Frame) (c n : Nat)
    (h : n - c ≤ (acceptedPayloads frames).length) :
    ∃ consumed,
      receive_batch frames c (.fin (n : Int)) =
        ⟨(acceptedPayloads frames).take (n - c), consumed, true⟩ ∧
      acceptedPayloads (frames.drop consumed) =
        (acceptedPayloads frames).drop (n - c) := by
  induction frames generalizing c with
  | nil =>
    have h0 : n - c = 0 := by simpa [acceptedPayloads] using h
    refine ⟨0, ?_, by simp [h0]⟩
    rw [receive_batch_exit]
    · simp [acceptedPayloads, h0]
    · rw [ltLimit_fin_natCast]
      simp
      omega
  | cons f rest ih =>
    by_cases hc : c < n
    · have hlt : ltLimit (c : Int) (.fin (n : Int)) = true := by
        rw [ltLimit_fin_natCast]
        simp [hc]
      match f with
      | none =>
        rw [acceptedPayloads_malformed] at h ⊢
        obtain ⟨consumed, heq, hdrop⟩ := ih c h
        exact ⟨consumed + 1, by rw [receive_batch_malformed _ _ _ hlt, heq],
          by simpa using hdrop⟩
      | some payload =>
        rw [receive_batch_accepted _ _ _ _ hlt]
        rw [acceptedPayloads_accepted] at h ⊢
        have h' : n - (c + 1) ≤ (acceptedPayloads rest).length := by
          simp at h
          omega
        obtain ⟨consumed, heq, hdrop⟩ := ih (c + 1) h'
        refine ⟨consumed + 1, ?_, ?_⟩
        · rw [heq]
          have hsplit : n - c = (n - (c + 1)) + 1 := by omega
          rw [hsplit, List.take_succ_cons]
        · have hsplit : n - c = (n - (c + 1)) + 1 := by omega
          rw [hsplit]
          simpa using hdrop
    · have h0 : n - c = 0 := by omega
      refine ⟨0, ?_, by simp [h0]⟩
      rw [receive_batch_exit]
      · simp [h0]
      · rw [ltLimit_fin_natCast]
        simp
        omega

/-- A batchsize that is not positive makes the collector exit at once:
nothing is read, nothing is yielded. -/
theorem receive_batch_nonpos (frames : List Frame) (b : Int) (hb : b ≤ 0) :
    receive_batch frames 0 (.fin b) = ⟨[], 0, true⟩ := by
  apply receive_batch_exit
  simp [ltLimit]
  omega

theorem mapM_map_some {α β : Type} (l : List α) (f : α → β) :
    l.mapM (fun a => some (f a)) = some (l.map f) := by
  induction l with
  | nil => rfl
  | cons a t ih => rw [List.mapM_cons, ih]; rfl

theorem recordExecs_obj (inserts : List String) (d : Fields) (fl : Fields) :
    recordExecs inserts d (.obj fl) =
      some (inserts.map (fun insrt => (insrt, dictMerge d fl))) := by
  unfold recordExecs
  simp only [mergeRecord, Option.map_some]
  exact mapM_map_some inserts _

theorem write_immediately_objs (inserts : List String) (d : Fields)
    (recs : List Fields) :
    write_immediately inserts d (recs.map .obj) =
      some (recs.flatMap (fun r => inserts.map (fun insrt => (insrt, dictMerge d r)))) := by
  induction recs with
  | nil => rfl
  | cons r t ih => simp [write_immediately, recordExecs_obj, ih]

theorem write_batch_exhausted (inserts : List String) (d : Fields) :
    write_batch inserts d [] = some [] := by
  induction inserts with
  | nil => rfl
  | cons insrt rest ih => rw [write_batch]; rw [show ([] : List Json).mapM (mergeRecord d) = some [] from rfl]; simp [ih]

theorem mapM_mergeRecord_objs (d : Fields) (recs : List Fields) :
    (recs.map Json.obj).mapM (mergeRecord d) = some (recs.map (dictMerge d)) := by
  induction recs with
  | nil => rfl
  | cons r t ih => rw [List.map_cons, List.mapM_cons, ih]; rfl

theorem write_batch_objs (insrt : String) (rest : List String) (d : Fields)
    (recs : List Fields) :
    write_batch (insrt :: rest) d (recs.map .obj) =
      some (recs.map (fun r => (insrt, dictMerge d r))) := by
  rw [write_batch, mapM_mergeRecord_objs, write_batch_exhausted]
  simp [List.map_map]

theorem lookup_append (k : String) (l₁ l₂ : List (String × Json)) :
    List.lookup k (l₁ ++ l₂) = (List.lookup k l₁).or (List.lookup k l₂) := by
  induction l₁ with
  | nil => simp
  | cons kv t ih =>
    obtain ⟨a, v⟩ := kv
    cases h : k == a <;> simp [List.lookup, h, ih]

theorem lookup_map_override (k : String) (d r : Fields) :
    List.lookup k (d.map (fun kv => (kv.1, (List.lookup kv.1 r).getD kv.2))) =
      (List.lookup k d).map (fun v => (List.lookup k r).getD v) := by
  induction d with
  | nil => simp
  | cons kv t ih =>
    obtain ⟨a, v⟩ := kv
    cases h : k == a
    · simp [List.lookup, h, ih]
    · have : k = a := by simpa using h
      subst this
      simp [List.lookup]

theorem lookup_filter_keys (k : String) (r : Fields) (q : String → Bool) :
    List.lookup k (r.filter (fun kv => q kv.1)) =
      if q k then List.lookup k r else none := by
  induction r with
  | nil => simp
  | cons kv t ih =>
    obtain ⟨a, v⟩ := kv
    by_cases hq : q a
    · cases h : k == a
      · simp [List.filter_cons, hq, List.lookup, h, ih]
      · have : k = a := by simpa using h
        subst this
        simp [List.filter_cons, hq, List.lookup]
    · cases h : k == a
      · simp [List.filter_cons, hq, List.lookup, h, ih]
      · have : k = a := by simpa using h
        subst this
        simp only [List.filter_cons]
        simp [hq, ih]

/-- Lookup semantics of the dict merge `{**d, **r}`: the record's own
binding when it has one, the default otherwise. -/
theorem dictMerge_lookup (d r : Fields) (k : String) :
    List.lookup k (dictMerge d r) = (List.lookup k r).or (List.lookup k d) := by
  unfold dictMerge
  rw [lookup_append, lookup_map_override,
    lookup_filter_keys k r (fun key => (List.lookup key d).isNone)]
  cases hd : List.lookup k d <;> cases hr : List.lookup k r <;>
    simp [Option.or, hd, hr]

/-- The merged record has a binding for a key exactly when the record or
the defaults do. -/
theorem dictMerge_isSome (d r : Fields) (k : String) :
    (List.lookup k (dictMerge d r)).isSome =
      ((List.lookup k r).isSome || (List.lookup k d).isSome) := by
  rw [dictMerge_lookup]
  cases List.lookup k r <;> simp [Option.or]

theorem exists_objs_rep (l : List Json) (h : ∀ p ∈ l, ∃ fl, p = .obj fl) :
    ∃ recs : List Fields, l = recs.map Json.obj := by
  induction l with
  | nil => exact ⟨[], rfl⟩
  | cons p t ih =>
    obtain ⟨fl, hp⟩ := h p (by simp)
    obtain ⟨recs, ht⟩ := ih (fun q hq => h q (by simp [hq]))
    exact ⟨fl :: recs, by simp [hp, ht]⟩

theorem write_immediately_cons (inserts : List String) (d : Fields) (p : Json)
    (l : List Json) (es t : List Execution)
    (hr : recordExecs inserts d p = some es)
    (ht : write_immediately inserts d l = some t) :
    write_immediately inserts d (p :: l) = some (es ++ t) := by
  rw [write_immediately, hr, ht]
  rfl

theorem batchedLoop_exit (inserts : List String) (d : Fields) (b : Int)
    (total : Limit) (fuel : Nat) (count : Int) (frames : List Frame)
    (h : ltLimit count total = false) :
    batchedLoop inserts d b total fuel count frames =
      ⟨[], [], count, frames, .finished⟩ := by
  rw [batchedLoop.eq_def, h]
  rfl

theorem batchedLoop_fuelOut (inserts : List String) (d : Fields) (b : Int)
    (total : Limit) (count : Int) (frames : List Frame)
    (h : ltLimit count total = true) :
    batchedLoop inserts d b total 0 count frames =
      ⟨[], [], count, frames, .fuelOut⟩ := by
  rw [batchedLoop.eq_def, h]
  rfl

theorem batchedLoop_cycle (inserts : List String) (d : Fields) (b : Int)
    (total : Limit) (fuel : Nat) (count : Int) (frames : List Frame)
    (acc : List Json) (consumed : Nat) (es : List Execution)
    (h : ltLimit count total = true) (hIns : inserts.isEmpty = false)
    (hr : receive_batch frames 0 (.fin b) = ⟨acc, consumed, true⟩)
    (hw : write_batch inserts d acc = some es) :
    batchedLoop inserts d b total (fuel + 1) count frames =
      ⟨acc :: (batchedLoop inserts d b total fuel (count + b)
          (frames.drop consumed)).batches,
        es ++ (batchedLoop inserts d b total fuel (count + b)
          (frames.drop consumed)).execs,
        (batchedLoop inserts d b total fuel (count + b)
          (frames.drop consumed)).count,
        (batchedLoop inserts d b total fuel (count + b)
          (frames.drop consumed)).frames,
        (batchedLoop inserts d b total fuel (count + b)
          (frames.drop consumed)).status⟩ := by
  rw [batchedLoop.eq_def, h]
  simp only [hIns, hr, hw]
  rfl

theorem batchedLoop_cycle_noInserts (inserts : List String) (d : Fields)
    (b : Int) (total : Limit) (fuel : Nat) (count : Int) (frames : List Frame)
    (h : ltLimit count total = true) (hIns : inserts.isEmpty = true) :
    batchedLoop inserts d b total (fuel + 1) count frames =
      ⟨[] :: (batchedLoop inserts d b total fuel (count + b) frames).batches,
        (batchedLoop inserts d b total fuel (count + b) frames).execs,
        (batchedLoop inserts d b total fuel (count + b) frames).count,
        (batchedLoop inserts d b total fuel (count + b) frames).frames,
        (batchedLoop inserts d b total fuel (count + b) frames).status⟩ := by
  rw [batchedLoop.eq_def, h]
  simp only [hIns]
  rfl

theorem streamLoop_exit (inserts : List String) (d : Fields) (total : Limit)
    (frames : List Frame) (count : Nat)
    (h : ltLimit (count : Int) total = false) :
    streamLoop inserts d total frames count = ⟨[], 0, .finished⟩ := by
  rw [streamLoop.eq_def, h]
  rfl

theorem streamLoop_starved (inserts : List String) (d : Fields) (total : Limit)
    (count : Nat) (h : ltLimit (count : Int) total = true) :
    streamLoop inserts d total [] count = ⟨[], 0, .blocked⟩ := by
  rw [streamLoop.eq_def, h]
  rfl

theorem streamLoop_malformed (inserts : List String) (d : Fields)
    (total : Limit) (rest : List Frame) (count : Nat)
    (h : ltLimit (count : Int) total = true) :
    streamLoop inserts d total (none :: rest) count =
      ⟨(streamLoop inserts d total rest count).execs,
        (streamLoop inserts d total rest count).consumed + 1,
        (streamLoop inserts d total rest count).status⟩ := by
  rw [streamLoop.eq_def, h]
  rfl

theorem streamLoop_accepted (inserts : List String) (d : Fields)
    (total : Limit) (payload : Json) (rest : List Frame) (count : Nat)
    (es : List Execution) (h : ltLimit (count : Int) total = true)
    (hm : recordExecs inserts d payload = some es) :
    streamLoop inserts d total (some payload :: rest) count =
      ⟨es ++ (streamLoop inserts d total rest (count + 1)).execs,
        (streamLoop inserts d total rest (count + 1)).consumed + 1,
        (streamLoop inserts d total rest (count + 1)).status⟩ := by
  rw [streamLoop.eq_def, h]
  simp only [filter, if_true, hm]

/-- Batched-arm workhorse: starting from `count = c` with exactly `m`
cycles still due (the budget check fails after `m` more increments and
succeeds before each of them), with enough fuel, enough accepted frames
and object-shaped payloads, the loop finishes having collected exactly
`m` further batches of exactly `N` accepted records each, in arrival
order. -/
theorem batchedLoop_run (inserts : List String) (d : Fields) (N : Nat)
    (T : Int) (hIns : inserts ≠ []) :
    ∀ (m : Nat) (c : Int) (frames : List Frame) (fuel : Nat),
      T ≤ c + ((m * N : Nat) : Int) →
      (∀ j : Nat, j < m → c + ((j * N : Nat) : Int) < T) →
      m ≤ fuel →
      (∀ p ∈ acceptedPayloads frames, ∃ fl, p = Json.obj fl) →
      m * N ≤ (acceptedPayloads frames).length →
      (batchedLoop inserts d (N : Int) (.fin T) fuel c frames).status = .finished ∧
      (batchedLoop inserts d (N : Int) (.fin T) fuel c frames).count =
        c + ((m * N : Nat) : Int) ∧
      (batchedLoop inserts d (N : Int) (.fin T) fuel c frames).batches.length = m ∧
      (∀ bt ∈ (batchedLoop inserts d (N : Int) (.fin T) fuel c frames).batches,
        bt.length = N) ∧
      (batchedLoop inserts d (N : Int) (.fin T) fuel c frames).batches.flatten =
        (acceptedPayloads frames).take (m * N) := by
  intro m
  induction m with
  | zero =>
    intro c frames fuel hstop _ _ _ _
    have hstop' : T ≤ c := by simpa using hstop
    have hx : ltLimit c (.fin T) = false := by
      simp [ltLimit]
      omega
    rw [batchedLoop_exit _ _ _ _ _ _ _ hx]
    simp
  | succ m ih =>
    intro c frames fuel hstop hgo hfuel hobj hsup
    have hc : c < T := by
      have := hgo 0 (by omega)
      simpa using this
    have hlt : ltLimit c (.fin T) = true := by simp [ltLimit, hc]
    obtain ⟨fuel', rfl⟩ : ∃ f', fuel = f' + 1 := ⟨fuel - 1, by omega⟩
    have hmul : (m + 1) * N = m * N + N := by ring
    have hNsup : N ≤ (acceptedPayloads frames).length := by
      rw [hmul] at hsup
      omega
    obtain ⟨consumed, heq, hdrop⟩ :=
      receive_batch_complete frames 0 N (by simpa using hNsup)
    rw [Nat.sub_zero] at heq hdrop
    have hobjTake : ∀ p ∈ (acceptedPayloads frames).take N, ∃ fl, p = Json.obj fl :=
      fun p hp => hobj p (List.mem_of_mem_take hp)
    obtain ⟨recs, hrecs⟩ := exists_objs_rep _ hobjTake
    obtain ⟨i0, irest, rfl⟩ : ∃ i0 irest, inserts = i0 :: irest := by
      cases inserts with
      | nil => exact absurd rfl hIns
      | cons a b => exact ⟨a, b, rfl⟩
    have hw : write_batch (i0 :: irest) d ((acceptedPayloads frames).take N) =
        some (recs.map (fun r => (i0, dictMerge d r))) := by
      rw [hrecs, write_batch_objs]
    rw [batchedLoop_cycle (i0 :: irest) d (N : Int) (.fin T) fuel' c frames
      _ consumed _ hlt rfl heq hw]
    have hstop' : T ≤ c + (N : Int) + ((m * N : Nat) : Int) := by
      rw [hmul] at hstop
      push_cast at hstop ⊢
      linarith
    have hgo' : ∀ j : Nat, j < m → c + (N : Int) + ((j * N : Nat) : Int) < T := by
      intro j hj
      have := hgo (j + 1) (by omega)
      have hj1 : (j + 1) * N = j * N + N := by ring
      rw [hj1] at this
      push_cast at this ⊢
      linarith
    have hobj' : ∀ p ∈ acceptedPayloads (frames.drop consumed), ∃ fl, p = Json.obj fl := by
      intro p hp
      rw [hdrop] at hp
      exact hobj p (List.mem_of_mem_drop hp)
    have hsup' : m * N ≤ (acceptedPayloads (frames.drop consumed)).length := by
      rw [hdrop, List.length_drop]
      rw [hmul] at hsup
      generalize m * N = q at hsup ⊢
      omega
    obtain ⟨ihs, ihc, ihl, ihb, ihf⟩ :=
      ih (c + (N : Int)) (frames.drop consumed) fuel' hstop' hgo' (by omega) hobj' hsup'
    refine ⟨by simpa using ihs, ?_, by simpa using ihl, ?_, ?_⟩
    · simp only
      rw [ihc, hmul]
      push_cast
      ring
    · intro bt hbt
      simp only [List.mem_cons] at hbt
      rcases hbt with rfl | hbt
      · simp [List.length_take, hNsup]
      · exact ihb bt hbt
    · simp only [List.flatten_cons]
      rw [ihf, hdrop, hmul, Nat.add_comm (m * N) N, List.take_add]

/-- Streaming-arm workhorse, finite budget: when the socket will deliver
the remaining `n - c` accepted records and they are object-shaped, the
fused `write_immediately(receive_batch(sck, total))` cycle terminates,
having performed exactly the immediate-writes of those records. -/
theorem streamLoop_fin (inserts : List String) (d : Fields) :
    ∀ (frames : List Frame) (c n : Nat),
      n - c ≤ (acceptedPayloads frames).length →
      (∀ p ∈ acceptedPayloads frames, ∃ fl, p = Json.obj fl) →
      ∃ es consumed,
        write_immediately inserts d ((acceptedPayloads frames).take (n - c)) =
          some es ∧
        streamLoop inserts d (.fin (n : Int)) frames c = ⟨es, consumed, .finished⟩ := by
  intro frames
  induction frames with
  | nil =>
    intro c n h _
    have h0 : n - c = 0 := by simpa [acceptedPayloads] using h
    refine ⟨[], 0, by simp [h0, write_immediately], ?_⟩
    rw [streamLoop_exit]
    rw [ltLimit_fin_natCast]
    simp
    omega
  | cons f rest ih =>
    intro c n h hobj
    by_cases hc : c < n
    · have hlt : ltLimit (c : Int) (.fin (n : Int)) = true := by
        rw [ltLimit_fin_natCast]
        simp [hc]
      match f with
      | none =>
        rw [acceptedPayloads_malformed] at h hobj ⊢
        obtain ⟨es, consumed, hwi, heq⟩ := ih c n h hobj
        exact ⟨es, consumed + 1, hwi,
          by rw [streamLoop_malformed _ _ _ _ _ hlt, heq]⟩
      | some payload =>
        rw [acceptedPayloads_accepted] at h hobj ⊢
        obtain ⟨fl, rfl⟩ := hobj payload (by simp)
        have h' : n - (c + 1) ≤ (acceptedPayloads rest).length := by
          simp at h
          omega
        obtain ⟨es, consumed, hwi, heq⟩ :=
          ih (c + 1) n h' (fun q hq => hobj q (by simp [hq]))
        have hsplit : n - c = (n - (c + 1)) + 1 := by omega
        refine ⟨inserts.map (fun insrt => (insrt, dictMerge d fl)) ++ es,
          consumed + 1, ?_, ?_⟩
        · rw [hsplit, List.take_succ_cons]
          exact write_immediately_cons _ _ _ _ _ _ (recordExecs_obj _ _ _) hwi
        · rw [streamLoop_accepted _ _ _ _ _ _ _ hlt (recordExecs_obj _ _ _), heq]
    · have h0 : n - c = 0 := by omega
      refine ⟨[], 0, by simp [h0, write_immediately], ?_⟩
      rw [streamLoop_exit]
      rw [ltLimit_fin_natCast]
      simp
      omega

/-- Streaming-arm workhorse, unbounded budget: the per-record budget check
never fails, so the cycle consumes every frame the socket will ever
deliver, immediate-writes every accepted record, and is still blocked in
`recvfrom` at the end of observation. -/
theorem streamLoop_inf (inserts : List String) (d : Fields) :
    ∀ (frames : List Frame) (c : Nat),
      (∀ p ∈ acceptedPayloads frames, ∃ fl, p = Json.obj fl) →
      ∃ es,
        write_immediately inserts d (acceptedPayloads frames) = some es ∧
        streamLoop inserts d .inf frames c = ⟨es, frames.length, .blocked⟩ := by
  intro frames
  induction frames with
  | nil =>
    intro c _
    refine ⟨[], by simp [acceptedPayloads, write_immediately], ?_⟩
    rw [streamLoop_starved inserts d .inf c (by simp [ltLimit])]
    rfl
  | cons f rest ih =>
    intro c hobj
    match f with
    | none =>
      rw [acceptedPayloads_malformed] at hobj ⊢
      obtain ⟨es, hwi, heq⟩ := ih c hobj
      refine ⟨es, hwi, ?_⟩
      rw [streamLoop_malformed inserts d .inf rest c (by simp [ltLimit]), heq]
      rfl
    | some payload =>
      rw [acceptedPayloads_accepted] at hobj ⊢
      obtain ⟨fl, rfl⟩ := hobj payload (by simp)
      obtain ⟨es, hwi, heq⟩ := ih (c + 1) (fun q hq => hobj q (by simp [hq]))
      refine ⟨inserts.map (fun insrt => (insrt, dictMerge d fl)) ++ es, ?_, ?_⟩
      · exact write_immediately_cons _ _ _ _ _ _ (recordExecs_obj _ _ _) hwi
      · rw [streamLoop_accepted inserts d .inf (.obj fl) rest c _
          (by simp [ltLimit]) (recordExecs_obj _ _ _), heq]
        rfl
/-! ## Claim theorems -/

/-- C1: evaluation of the batched sink at the failing input
`insert = ["s1", "s2"]`, defaults `{}`, batch of one record `{}`: the
batched policy performs exactly one parameterized store execution (only
the first insert statement sees the batch; the second `executemany`
iterates the generator the first one exhausted), not `k·n = 2`; the
immediate policy on the very same inputs performs both, as the claim
expects of each record. -/
theorem c1_later_inserts_get_exhausted_generator :
    write_batch ["s1", "s2"] [] [.obj []] = some [("s1", [])] ∧
    write_immediately ["s1", "s2"] [] [.obj []] =
      some [("s1", []), ("s2", [])] := by
  constructor <;> rfl

/-- C2: `parse_bind` evaluated at the four inputs of the claim.
`ip://localhost:9999` does not resolve to `("127.0.0.1", 9999)`: the
source computes `ip_address(hostname).version` before its own
localhost-substitution line, and `ip_address('localhost')` raises
`ValueError`.  `unix:///tmp/sock` does not resolve to `/tmp/sock`: the
hostname of a `unix:///…` URL (empty netloc) is Python `None`, so
`res.hostname + res.path` raises `TypeError`.  `ip://host-with-no-port`
does raise a `ValueError`, though from `ip_address`, before the
no-port check is reached; an unsupported scheme raises `ValueError` as
claimed. -/
theorem c2_parse_bind_at_spec_inputs :
    parse_bind "ip://localhost:9999" =
      .error (.valueError "does not appear to be an IPv4 or IPv6 address") ∧
    parse_bind "unix:///tmp/sock" =
      .error (.typeError "unsupported operand for +: NoneType and str") ∧
    parse_bind "ip://host-with-no-port" =
      .error (.valueError "does not appear to be an IPv4 or IPv6 address") ∧
    parse_bind "ftp://example.com:21" =
      .error (.valueError "Unsupported scheme") := by
  exact ⟨rfl, rfl, rfl, rfl⟩

/-- C3: evaluation of the collector at the failing input: the raw frame
that parses as the JSON number `5` — valid JSON but not an object — is
passed to the filter, accepted, advances the per-batch counter to the
batchsize and is yielded; it is not treated as a decode failure (the
source never checks `isinstance(payload, dict)`).  The sink's own merge
then raises `TypeError` on that payload, as the second conjunct records. -/
theorem c3_nonobject_payload_is_accepted :
    receive_batch [some (.num 5)] 0 (.fin 1) = ⟨[.num 5], 1, true⟩ ∧
    mergeRecord [] (.num 5) = none := by
  constructor <;> rfl

/-- C4: with a finite limit `L > 0` and a frame stream carrying at least
`L` accepted payloads, the collector completes (`completed = true`,
no early return), yielding precisely the first `L` accepted payloads in
arrival order, of length exactly `L`: malformed or filter-rejected frames
appear nowhere in the yield and never advance the per-batch counter — the
final counter equals the number of accepted records yielded. -/
theorem c4_collector_yields_exactly_limit (L : Nat) (frames : List Frame)
    (_hL : 0 < L) (hsup : L ≤ (acceptedPayloads frames).length) :
    ∃ consumed,
      receive_batch frames 0 (.fin (L : Int)) =
        ⟨(acceptedPayloads frames).take L, consumed, true⟩ ∧
      ((acceptedPayloads frames).take L).length = L := by
  obtain ⟨consumed, heq, _⟩ :=
    receive_batch_complete frames 0 L (by simpa using hsup)
  rw [Nat.sub_zero] at heq
  refine ⟨consumed, heq, ?_⟩
  simp [List.length_take]
  omega

/-- Witness for C4 at `L = 1` and a stream of one malformed and one
accepted frame. -/
theorem c4_collector_yields_exactly_limit_witness :
    0 < 1 ∧ 1 ≤ (acceptedPayloads [none, some (.obj [])]).length ∧
    (∃ consumed,
      receive_batch [none, some (.obj [])] 0 (.fin ((1 : Nat) : Int)) =
        ⟨(acceptedPayloads [none, some (.obj [])]).take 1, consumed, true⟩ ∧
      ((acceptedPayloads [none, some (.obj [])]).take 1).length = 1) :=
  ⟨by decide, by decide,
    c4_collector_yields_exactly_limit 1 [none, some (.obj [])]
      (by decide) (by decide)⟩

/-- C6: both sink policies compute the effective record of a payload with
the one shared merge `dictMerge defaults record`: the immediate policy for
every (record, insert statement) pair, the batched policy for every record
it writes (the first statement's bulk apply; the later statements' gap is
C1's finding).  The merge itself is the claimed one: lookup prefers the
record's binding over the default (record fields win on collision), and
the merged record has a binding exactly where the record or the defaults
have one — so a record sharing no keys with the defaults is written with
all default keys and all record keys present. -/
theorem c6_sink_policies_share_merge_rule (d r : Fields) (recs : List Fields)
    (insrt : String) (rest : List String) (k : String) :
    write_immediately (insrt :: rest) d (recs.map .obj) =
      some (recs.flatMap
        (fun rc => (insrt :: rest).map (fun i => (i, dictMerge d rc)))) ∧
    write_batch (insrt :: rest) d (recs.map .obj) =
      some (recs.map (fun rc => (insrt, dictMerge d rc))) ∧
    List.lookup k (dictMerge d r) = (List.lookup k r).or (List.lookup k d) ∧
    (List.lookup k (dictMerge d r)).isSome =
      ((List.lookup k r).isSome || (List.lookup k d).isSome) :=
  ⟨write_immediately_objs _ _ _, write_batch_objs _ _ _ _,
    dictMerge_lookup _ _ _, dictMerge_isSome _ _ _⟩

/-- C8: `Config.__init__` raises `ValueError` exactly when the database
path is missing, the create list is not a list, the insert list is not a
list, the batch size is not an int, or neither bind nor exporter is
configured; it raises the fail-fast `NotImplementedError` exactly when
those checks pass, no bind is configured and an exporter is; it succeeds
exactly when the four value checks pass and a bind is configured.  All of
this happens at construction, before any ingestion. -/
theorem c8_config_validation
    (database create insert defaults batch exporter bind : PyVal) :
    ((∃ m, Config.init database create insert defaults batch exporter bind =
        .error (.valueError m)) ↔
      (database.isNone = true ∨ create.isList = false ∨ insert.isList = false ∨
        batch.isInt = false ∨ (bind.isNone = true ∧ exporter.isNone = true))) ∧
    ((∃ m, Config.init database create insert defaults batch exporter bind =
        .error (.notImplementedError m)) ↔
      (database.isNone = false ∧ create.isList = true ∧ insert.isList = true ∧
        batch.isInt = true ∧ bind.isNone = true ∧ exporter.isNone = false)) ∧
    ((∃ attrs, Config.init database create insert defaults batch exporter bind =
        .ok attrs) ↔
      (database.isNone = false ∧ create.isList = true ∧ insert.isList = true ∧
        batch.isInt = true ∧ bind.isNone = false)) := by
  unfold Config.init
  split_ifs <;> simp_all
/-- C5: batched mode with batch size `N > 0` and finite total budget `T`:
the loop checks the total counter only between batches, so it performs
exactly `⌈T/N⌉` collect-write cycles, each collecting exactly `N` accepted
records (their concatenation is the arrival-order prefix of the accepted
stream), finishing with `count = ⌈T/N⌉·N`, which reaches `T` and
overshoots it by at most `N - 1` records. -/
theorem c5_batched_cycle_count (inserts : List String) (d : Fields)
    (bnd : Binding) (N T fuel : Nat) (frames : List Frame)
    (hN : 0 < N) (hIns : inserts ≠ [])
    (hobj : ∀ p ∈ acceptedPayloads frames, ∃ fl, p = Json.obj fl)
    (hsup : ((T + N - 1) / N) * N ≤ (acceptedPayloads frames).length)
    (hfuel : (T + N - 1) / N ≤ fuel) :
    ∃ r : RunOut,
      listen_and_write ⟨inserts, d, (N : Int), some bnd⟩ (.fin (T : Int))
        fuel frames = some r ∧
      r.status = .finished ∧
      r.batches.length = (T + N - 1) / N ∧
      (∀ bt ∈ r.batches, bt.length = N) ∧
      r.batches.flatten =
        (acceptedPayloads frames).take (((T + N - 1) / N) * N) ∧
      r.count = ((((T + N - 1) / N) * N : Nat) : Int) ∧
      (T : Int) ≤ r.count ∧ r.count - (T : Int) ≤ (N : Int) - 1 := by
  set m := (T + N - 1) / N with hm
  have hdm := Nat.div_add_mod (T + N - 1) N
  have hmod : (T + N - 1) % N < N := Nat.mod_lt _ hN
  rw [← hm, Nat.mul_comm N m] at hdm
  have hkey : T ≤ m * N ∧ m * N ≤ T + N - 1 := by
    generalize m * N = q at hdm
    omega
  have hstop : (T : Int) ≤ 0 + ((m * N : Nat) : Int) := by
    have hc : ((T : Nat) : Int) ≤ ((m * N : Nat) : Int) := by
      exact_mod_cast hkey.1
    simpa using hc
  have hgo : ∀ j : Nat, j < m → (0 : Int) + ((j * N : Nat) : Int) < (T : Int) := by
    intro j hj
    have hstep : (j + 1) * N ≤ m * N := Nat.mul_le_mul_right N (by omega)
    have hexp : (j + 1) * N = j * N + N := by ring
    rw [hexp] at hstep
    have hlt : j * N < T := by
      generalize j * N = A at hstep ⊢
      generalize m * N = Q at hstep hkey
      omega
    have hc : ((j * N : Nat) : Int) < ((T : Nat) : Int) := by exact_mod_cast hlt
    simpa using hc
  obtain ⟨ihs, ihc, ihl, ihb, ihf⟩ :=
    batchedLoop_run inserts d N (T : Int) hIns m 0 frames fuel hstop hgo
      hfuel hobj hsup
  set lo := batchedLoop inserts d (N : Int) (.fin (T : Int)) fuel 0 frames
    with hlo
  refine ⟨⟨lo.batches, lo.execs, lo.count, lo.frames, lo.status⟩,
    ?_, ihs, ihl, ihb, ihf, ?_, ?_, ?_⟩
  · have hN0 : ¬((N : Int) = 0) := by
      simpa using hN.ne'
    unfold listen_and_write
    simp [hN0, hlo]
  · show lo.count = _
    rw [ihc]
    simp
  · show (T : Int) ≤ lo.count
    rw [ihc]
    exact hstop
  · show lo.count - (T : Int) ≤ _
    rw [ihc]
    have h2 := hkey.2
    generalize m * N = Q at h2 ⊢
    omega

/-- Witness for C5 at `N = 2`, `T = 3` (`⌈T/N⌉ = 2` cycles, 4 records,
overshoot 1) over a stream of four accepted object records. -/
theorem c5_batched_cycle_count_witness :
    0 < 2 ∧ (["i"] : List String) ≠ [] ∧
    (∀ p ∈ acceptedPayloads
        [some (.obj []), some (.obj []), some (.obj []), some (.obj [])],
      ∃ fl, p = Json.obj fl) ∧
    ((3 + 2 - 1) / 2) * 2 ≤ (acceptedPayloads
        [some (.obj []), some (.obj []), some (.obj []), some (.obj [])]).length ∧
    (3 + 2 - 1) / 2 ≤ 2 ∧
    (∃ r : RunOut,
      listen_and_write ⟨["i"], [], ((2 : Nat) : Int), some (.unixPath ['s'])⟩
        (.fin ((3 : Nat) : Int)) 2
        [some (.obj []), some (.obj []), some (.obj []), some (.obj [])] =
          some r ∧
      r.status = .finished ∧
      r.batches.length = (3 + 2 - 1) / 2 ∧
      (∀ bt ∈ r.batches, bt.length = 2) ∧
      r.batches.flatten = (acceptedPayloads
        [some (.obj []), some (.obj []), some (.obj []), some (.obj [])]).take
          (((3 + 2 - 1) / 2) * 2) ∧
      r.count = ((((3 + 2 - 1) / 2) * 2 : Nat) : Int) ∧
      ((3 : Nat) : Int) ≤ r.count ∧
      r.count - ((3 : Nat) : Int) ≤ ((2 : Nat) : Int) - 1) := by
  have hobj : ∀ p ∈ acceptedPayloads
      [some (.obj []), some (.obj []), some (.obj []), some (.obj [])],
      ∃ fl, p = Json.obj fl := by
    intro p hp
    simp [acceptedPayloads, filter] at hp
    exact ⟨[], hp⟩
  exact ⟨by decide, by simp, hobj, by decide, by decide,
    c5_batched_cycle_count ["i"] [] (.unixPath ['s']) 2 3 2
      [some (.obj []), some (.obj []), some (.obj []), some (.obj [])]
      (by decide) (by simp) hobj (by decide) (by decide)⟩

/-- C7: batch size 0 selects the single streaming cycle with the
immediate-write policy.  Finite budget `T`: when the stream carries at
least `T` accepted object records, the run finishes having performed
exactly the immediate-writes of the first `T` accepted records (each
insert statement per record, per-record budget check inside the cycle).
Unbounded budget: the run never finishes on any finite stream — it
immediate-writes every accepted record the socket ever delivers and is
still blocked reading. -/
theorem c7_streaming_mode (inserts : List String) (d : Fields) (bnd : Binding)
    (T fuel : Nat) (frames : List Frame)
    (hobj : ∀ p ∈ acceptedPayloads frames, ∃ fl, p = Json.obj fl)
    (hsup : T ≤ (acceptedPayloads frames).length) :
    (∃ es consumed,
      write_immediately inserts d ((acceptedPayloads frames).take T) =
        some es ∧
      ((acceptedPayloads frames).take T).length = T ∧
      listen_and_write ⟨inserts, d, 0, some bnd⟩ (.fin (T : Int)) fuel frames =
        some ⟨[], es, 0, frames.drop consumed, .finished⟩) ∧
    (∃ es2,
      write_immediately inserts d (acceptedPayloads frames) = some es2 ∧
      listen_and_write ⟨inserts, d, 0, some bnd⟩ .inf fuel frames =
        some ⟨[], es2, 0, [], .blocked⟩) := by
  constructor
  · obtain ⟨es, consumed, hwi, heq⟩ :=
      streamLoop_fin inserts d frames 0 T (by simpa using hsup) hobj
    refine ⟨es, consumed, hwi, ?_, ?_⟩
    · simp [List.length_take]
      omega
    · unfold listen_and_write
      simp [heq]
  · obtain ⟨es2, hwi, heq⟩ := streamLoop_inf inserts d frames 0 hobj
    refine ⟨es2, hwi, ?_⟩
    unfold listen_and_write
    simp [heq, List.drop_length]

/-- Witness for C7 at `T = 1` over a stream of one accepted object
record. -/
theorem c7_streaming_mode_witness :
    (∀ p ∈ acceptedPayloads [some (.obj [])], ∃ fl, p = Json.obj fl) ∧
    1 ≤ (acceptedPayloads [some (.obj [])]).length ∧
    ((∃ es consumed,
      write_immediately ["i"] [] ((acceptedPayloads [some (.obj [])]).take 1) =
        some es ∧
      ((acceptedPayloads [some (.obj [])]).take 1).length = 1 ∧
      listen_and_write ⟨["i"], [], 0, some (.unixPath ['s'])⟩
          (.fin ((1 : Nat) : Int)) 0 [some (.obj [])] =
        some ⟨[], es, 0, [some (.obj [])].drop consumed, .finished⟩) ∧
    (∃ es2,
      write_immediately ["i"] [] (acceptedPayloads [some (.obj [])]) =
        some es2 ∧
      listen_and_write ⟨["i"], [], 0, some (.unixPath ['s'])⟩ .inf 0
          [some (.obj [])] =
        some ⟨[], es2, 0, [], .blocked⟩)) := by
  have hobj : ∀ p ∈ acceptedPayloads [some (.obj [])], ∃ fl, p = Json.obj fl := by
    intro p hp
    simp [acceptedPayloads, filter] at hp
    subst hp
    exact ⟨[], rfl⟩
  exact ⟨hobj, by decide,
    c7_streaming_mode ["i"] [] (.unixPath ['s']) 1 0 [some (.obj [])]
      hobj (by decide)⟩

/-- C9: `Config.__init__` accepts any integer batch size, a negative one
included (only non-ints are rejected); with a negative batch size the
collector exits at once — the empty yield, not one frame read; and the
batched loop never terminates for any positive total budget: after any
number `fuel` of observed cycles it is still running (`fuelOut`), each
cycle having collected nothing, written nothing and added the negative
`b` to the total counter, which therefore strictly decreases. -/
theorem c9_negative_batch_size (b T : Int) (inserts : List String)
    (d : Fields) (bnd : Binding) (frames : List Frame) (fuel : Nat)
    (hb : b < 0) (hT : 0 < T) :
    (∃ attrs, Config.init (.str "db") (.list []) (.list []) (.dict [])
      (.int b) .none (.str "bound") = .ok attrs) ∧
    receive_batch frames 0 (.fin b) = ⟨[], 0, true⟩ ∧
    listen_and_write ⟨inserts, d, b, some bnd⟩ (.fin T) fuel frames =
      some ⟨List.replicate fuel [], [], (fuel : Int) * b, frames, .fuelOut⟩ := by
  refine ⟨⟨_, by unfold Config.init; rfl⟩,
    receive_batch_nonpos frames b hb.le, ?_⟩
  have hloop : ∀ (fl : Nat) (c : Int), c ≤ 0 →
      batchedLoop inserts d b (.fin T) fl c frames =
        ⟨List.replicate fl [], [], c + (fl : Int) * b, frames, .fuelOut⟩ := by
    intro fl
    induction fl with
    | zero =>
      intro c hc
      rw [batchedLoop_fuelOut]
      · simp
      · simp [ltLimit]
        omega
    | succ fl ih =>
      intro c hc
      have hlt : ltLimit c (.fin T) = true := by
        simp [ltLimit]
        omega
      have hcb : c + b ≤ 0 := by omega
      by_cases hIns : inserts.isEmpty
      · rw [batchedLoop_cycle_noInserts inserts d b (.fin T) fl c frames hlt hIns,
          ih (c + b) hcb]
        simp [List.replicate_succ]
        ring
      · rw [batchedLoop_cycle inserts d b (.fin T) fl c frames [] 0 [] hlt
          (by simpa using hIns) (receive_batch_nonpos frames b hb.le)
          (write_batch_exhausted inserts d)]
        rw [List.drop_zero, ih (c + b) hcb]
        simp [List.replicate_succ]
        ring
  have hb0 : ¬(b = 0) := by omega
  unfold listen_and_write
  simp only [Option.isNone_some, Bool.false_eq_true, if_false, hb0]
  rw [hloop fuel 0 le_rfl]
  simp

/-- Witness for C9 at `b = -1`, `T = 1`, two observed cycles over an empty
frame stream. -/
theorem c9_negative_batch_size_witness :
    (-1 : Int) < 0 ∧ (0 : Int) < 1 ∧
    ((∃ attrs, Config.init (.str "db") (.list []) (.list []) (.dict [])
      (.int (-1)) .none (.str "bound") = .ok attrs) ∧
    receive_batch [] 0 (.fin (-1)) = ⟨[], 0, true⟩ ∧
    listen_and_write ⟨["i"], [], -1, some (.unixPath ['s'])⟩ (.fin 1) 2 [] =
      some ⟨List.replicate 2 [], [], ((2 : Nat) : Int) * -1, [], .fuelOut⟩) :=
  ⟨by decide, by decide,
    c9_negative_batch_size (-1) 1 ["i"] [] (.unixPath ['s']) [] 2
      (by decide) (by decide)⟩

/-- C10: with a total budget of 0 the run ends before its first cycle
under either policy: the budget check fails at once (batched arm: before
the first collect; streaming arm: before the first record), so no frame is
read from the transport (the frame list is returned untouched), no store
execution happens, and the run finishes. -/
theorem c10_zero_total_budget (cfg : Cfg) (fuel : Nat) (frames : List Frame)
    (bnd : Binding) (hbind : cfg.bind = some bnd) :
    listen_and_write cfg (.fin 0) fuel frames =
      some ⟨[], [], 0, frames, .finished⟩ := by
  unfold listen_and_write
  rw [hbind]
  by_cases hb : cfg.batch = 0
  · rw [streamLoop_exit cfg.insert cfg.defaults (.fin 0) frames 0
      (by simp [ltLimit])]
    simp [hb]
  · rw [batchedLoop_exit cfg.insert cfg.defaults cfg.batch (.fin 0) fuel 0
      frames (by simp [ltLimit])]
    simp [hb]

/-- Witness for C10 with batch size 5 and one pending frame. -/
theorem c10_zero_total_budget_witness :
    (Cfg.mk ["i"] [] 5 (some (.unixPath ['s']))).bind =
      some (.unixPath ['s']) ∧
    listen_and_write (Cfg.mk ["i"] [] 5 (some (.unixPath ['s']))) (.fin 0) 3
      [none] = some ⟨[], [], 0, [none], .finished⟩ :=
  ⟨rfl, c10_zero_total_budget (Cfg.mk ["i"] [] 5 (some (.unixPath ['s'])))
    3 [none] (.unixPath ['s']) rfl⟩

end LogAggregate
